import Mathlib

/-!
Shallow embedding of the request/response adapter of the gemini-nano-banana
repository: `editImageWithPrompt` (src/services/geminiService.ts),
`fileToGenerativePart` (the Encoder), and the module-level API-key check.
JavaScript values that may be `undefined`/`null` are modelled as `Option`;
JavaScript string truthiness (a string is falsy exactly when empty) is made
explicit; a thrown `Error` is modelled as `Except.error` carrying its message.
-/

namespace NanoBanana

/-- One inline binary payload of a response part: the `inlineData` field of a
`Part` of the @google/genai SDK, with base64 `data` and a `mimeType`. -/
structure InlineData where
  data : String
  mimeType : String
deriving DecidableEq

/-- A content `Part` as probed by the adapter: it may carry inline binary data
and it may carry text; either field may be absent (`undefined` in JS). -/
structure Part where
  inlineData : Option InlineData
  text : Option String
deriving DecidableEq

/-- The `content` object of a response candidate; its `parts` list may be
absent. -/
structure Content where
  parts : Option (List Part)
deriving DecidableEq

/-- One response candidate; its `content` may be absent. -/
structure Candidate where
  content : Option Content
deriving DecidableEq

/-- The remote response as the adapter sees it: an optional candidates list. -/
structure GenerateContentResponse where
  candidates : Option (List Candidate)
deriving DecidableEq

/-- The adapter's result type (src/services/geminiService.ts, EditResult):
an optional data-URI string and an optional text string, both `null` meaning
absent. -/
structure EditResult where
  image : Option String
  text : Option String
deriving DecidableEq

/-- Response modality flags requested from the model. -/
inductive Modality where
  | IMAGE
  | TEXT
deriving DecidableEq

/-- The `config` object of the remote call. -/
structure GenerateContentConfig where
  responseModalities : List Modality
deriving DecidableEq

/-- The single remote call's argument: model id, the `contents.parts`
sequence, and the config. -/
structure GenerateContentRequest where
  model : String
  parts : List Part
  config : GenerateContentConfig
deriving DecidableEq

/-- JavaScript truthiness of an optional string: `undefined`/`null` and the
empty string are falsy, every other string is truthy. -/
def truthyString : Option String → Bool
  | none => false
  | some s => decide (s ≠ "")

/-- The data URI built by the adapter from an inline part:
`data:<mimeType>;base64,<data>` (src/services/geminiService.ts line 47). -/
def dataUriOf (d : InlineData) : String :=
  "data:" ++ d.mimeType ++ ";base64," ++ d.data

/-- One iteration of the adapter's `for (const part of parts)` loop over the
accumulator `(editedImage, responseText)`: a part with `inlineData` overwrites
the image (the `else if` means its text is never read); otherwise a truthy
`text` overwrites the text (src/services/geminiService.ts lines 44-51). -/
def scanStep (acc : Option String × Option String) (part : Part) :
    Option String × Option String :=
  match part.inlineData with
  | some d => (some (dataUriOf d), acc.2)
  | none => if truthyString part.text then (acc.1, part.text) else acc

/-- The adapter's whole scan of a parts list, starting from
`editedImage = null`, `responseText = null`. -/
def scanParts (parts : List Part) : Option String × Option String :=
  parts.foldl scanStep (none, none)

/-- Message of the protocol-violation error thrown when the scan found
neither image nor text (src/services/geminiService.ts line 56). -/
def protocolErrorMessage : String :=
  "Invalid response from the API. No image or text was returned."

/-- Message of the TypeError the JS runtime throws when the code dereferences
`candidates[0].content.parts` through an `undefined` value. The exact wording
is irrelevant downstream; it only matters that it lacks the substring
`permission`. -/
def typeErrorMessage : String :=
  "TypeError: Cannot read properties of undefined"

/-- The guard `response.candidates && response.candidates[0].content.parts`
followed by the scan loop (src/services/geminiService.ts lines 43-52). A falsy
`candidates` or a falsy `parts` skips the loop, leaving both accumulators
null; dereferencing `undefined` (an empty candidates list, or a candidate
without `content`) throws a TypeError. -/
def scanCandidates (response : GenerateContentResponse) :
    Except String (Option String × Option String) :=
  match response.candidates with
  | none => Except.ok (none, none)
  | some [] => Except.error typeErrorMessage
  | some (c0 :: _) =>
    match c0.content with
    | none => Except.error typeErrorMessage
    | some ct =>
      match ct.parts with
      | none => Except.ok (none, none)
      | some ps => Except.ok (scanParts ps)

/-- Lines 54-59 of src/services/geminiService.ts: after the scan, throw a
protocol error if both accumulators are still null, else return the
EditResult (a thrown error or an error already in flight is propagated). -/
def finishScan (scanned : Except String (Option String × Option String)) :
    Except String EditResult :=
  match scanned with
  | Except.error msg => Except.error msg
  | Except.ok (editedImage, responseText) =>
    if editedImage.isNone && responseText.isNone then
      Except.error protocolErrorMessage
    else
      Except.ok { image := editedImage, text := responseText }

/-- The body of the `try` block after the remote call returned a response
(src/services/geminiService.ts lines 40-59). An `Except.error` is a thrown
JS `Error` carrying its message. -/
def processResponse (response : GenerateContentResponse) :
    Except String EditResult :=
  finishScan (scanCandidates response)

/-- Does `needle` occur at the start of `haystack` (character lists)? -/
def leadsList : List Char → List Char → Bool
  | [], _ => true
  | _ :: _, [] => false
  | a :: as, b :: bs => a == b && leadsList as bs

/-- Does `needle` occur anywhere in `haystack` (character lists)? -/
def listHasSub (needle : List Char) : List Char → Bool
  | [] => needle.isEmpty
  | c :: rest => leadsList needle (c :: rest) || listHasSub needle rest

/-- JavaScript `haystack.includes(needle)` on strings. -/
def strIncludes (haystack needle : String) : Bool :=
  listHasSub needle.data haystack.data

/-- The fixed user-facing authorization failure message
(src/services/geminiService.ts line 65). -/
def authorizationMessage : String :=
  "API key is invalid or missing required permissions."

/-- The fixed user-facing generic failure message
(src/services/geminiService.ts line 67). -/
def genericFailureMessage : String :=
  "Failed to process image with the AI model. Please try again later."

/-- The failure the adapter surfaces to its caller: the error re-thrown by the
`catch` block, either the authorization error or the generic error, tagged by
which of the two `throw new Error(...)` sites produced it. -/
inductive AdapterFailure where
  | authorizationError (message : String)
  | genericError (message : String)
deriving DecidableEq

/-- The `catch` block of the adapter (src/services/geminiService.ts
lines 61-68): a caught `Error` whose message contains `permission` becomes the
authorization error, everything else the generic error. -/
def classifyCaught (message : String) : AdapterFailure :=
  if strIncludes message "permission" then
    AdapterFailure.authorizationError authorizationMessage
  else
    AdapterFailure.genericError genericFailureMessage

/-- What the remote `ai.models.generateContent` call can do: resolve with a
response, or reject (throw an `Error` with some message). -/
inductive RemoteOutcome where
  | response (r : GenerateContentResponse)
  | failure (message : String)

/-- The hard-coded model identifier (src/services/geminiService.ts line 9). -/
def model : String := "gemini-2.5-flash-image-preview"

/-- The `textPart` object `\x7b text: textPrompt \x7d` built by the adapter. -/
def mkTextPart (textPrompt : String) : Part :=
  { inlineData := none, text := some textPrompt }

/-- The argument of the one `generateContent` call
(src/services/geminiService.ts lines 29-38): the fixed model id, the parts
sequence `[imagePart, textPart]`, and both response modalities. -/
def buildRequest (imagePart : Part) (textPrompt : String) :
    GenerateContentRequest :=
  { model := model,
    parts := [imagePart, mkTextPart textPrompt],
    config := { responseModalities := [Modality.IMAGE, Modality.TEXT] } }

/-- Interaction tree of the adapter: it either performs a remote call and
continues with the outcome, or is done. Makes the number and arguments of
remote calls observable. -/
inductive AdapterProg (α : Type) where
  | call (req : GenerateContentRequest) (k : RemoteOutcome → AdapterProg α)
  | done (result : α)

/-- Run an interaction tree against an oracle standing for the remote service;
returns the trace of issued requests together with the final value. -/
def runAdapterProg {α : Type} (oracle : GenerateContentRequest → RemoteOutcome) :
    AdapterProg α → List GenerateContentRequest × α
  | AdapterProg.done a => ([], a)
  | AdapterProg.call req k =>
    let rest := runAdapterProg oracle (k (oracle req))
    (req :: rest.1, rest.2)

/-- The `try` block seen from the outcome of the remote call: a rejection
re-throws its message, a response is processed. -/
def attemptBody : RemoteOutcome → Except String EditResult
  | RemoteOutcome.failure msg => Except.error msg
  | RemoteOutcome.response r => processResponse r

/-- `editImageWithPrompt` as an interaction tree
(src/services/geminiService.ts lines 21-69): build the request, perform the
single remote call, run the try-body on the outcome, and map any thrown error
through the catch block. -/
def editImageWithPromptProg (imagePart : Part) (textPrompt : String) :
    AdapterProg (Except AdapterFailure EditResult) :=
  AdapterProg.call (buildRequest imagePart textPrompt) (fun outcome =>
    AdapterProg.done
      (match attemptBody outcome with
       | Except.ok res => Except.ok res
       | Except.error msg => Except.error (classifyCaught msg)))

/-- The adapter's result against a given remote oracle. -/
def editImageWithPrompt (oracle : GenerateContentRequest → RemoteOutcome)
    (imagePart : Part) (textPrompt : String) : Except AdapterFailure EditResult :=
  (runAdapterProg oracle (editImageWithPromptProg imagePart textPrompt)).2

/-- The trace of remote requests one invocation of the adapter issues. -/
def adapterRequestTrace (oracle : GenerateContentRequest → RemoteOutcome)
    (imagePart : Part) (textPrompt : String) : List GenerateContentRequest :=
  (runAdapterProg oracle (editImageWithPromptProg imagePart textPrompt)).1

/-- A response whose single candidate carries exactly the given parts list;
the shape the happy path of the adapter scans. -/
def mkResponse (parts : List Part) : GenerateContentResponse :=
  { candidates := some [{ content := some { parts := some parts } }] }

/-- A part the adapter treats as binary: `part.inlineData` is truthy. -/
def isImagePart (p : Part) : Bool := p.inlineData.isSome

/-- A part the adapter treats as text: no `inlineData` and truthy `text`
(the `else if` branch). -/
def isTextOnlyPart (p : Part) : Bool := p.inlineData.isNone && truthyString p.text

/-- The data URI of the last part carrying `inlineData`, if any. -/
def lastImage : List Part → Option String
  | [] => none
  | p :: rest =>
    match lastImage rest with
    | some s => some s
    | none => Option.map dataUriOf p.inlineData

/-- The text of the last text-only part (no `inlineData`, truthy text),
if any. -/
def lastText : List Part → Option String
  | [] => none
  | p :: rest =>
    match lastText rest with
    | some s => some s
    | none => if isTextOnlyPart p then p.text else none

/-- Right-biased-into-left choice on optional strings: keep `a` when present,
else `b`. -/
def oor (a b : Option String) : Option String :=
  match a with
  | some s => some s
  | none => b

/-- The standard radix-64 digit alphabet used by `FileReader.readAsDataURL`. -/
def b64Alphabet : List Char :=
  ['A', 'B', 'C', 'D', 'E', 'F', 'G', 'H', 'I', 'J', 'K', 'L', 'M',
   'N', 'O', 'P', 'Q', 'R', 'S', 'T', 'U', 'V', 'W', 'X', 'Y', 'Z',
   'a', 'b', 'c', 'd', 'e', 'f', 'g', 'h', 'i', 'j', 'k', 'l', 'm',
   'n', 'o', 'p', 'q', 'r', 's', 't', 'u', 'v', 'w', 'x', 'y', 'z',
   '0', '1', '2', '3', '4', '5', '6', '7', '8', '9', '+', '/']

/-- The radix-64 digit of a sextet value. -/
def b64EncodeChar (n : Nat) : Char := b64Alphabet.getD n 'A'

/-- Standard radix-64 encoding of a byte list (bytes as `Nat < 256`), with
`=` padding; this is the payload `FileReader.readAsDataURL` places after the
comma of the data URL. -/
def base64Encode : List Nat → List Char
  | [] => []
  | [a] =>
    [b64EncodeChar (a / 4), b64EncodeChar (a % 4 * 16), '=', '=']
  | [a, b] =>
    [b64EncodeChar (a / 4), b64EncodeChar (a % 4 * 16 + b / 16),
     b64EncodeChar (b % 16 * 4), '=']
  | a :: b :: c :: rest =>
    b64EncodeChar (a / 4) :: b64EncodeChar (a % 4 * 16 + b / 16) ::
    b64EncodeChar (b % 16 * 4 + c / 64) :: b64EncodeChar (c % 64) ::
    base64Encode rest

/-- Modelled from the spec: the value of a radix-64 digit, the inverse of
`b64EncodeChar` on sextets. The repository never decodes; this is the
standard decoder the round-trip law of section 8 of the spec quantifies
over. -/
def b64DecodeChar (ch : Char) : Nat :=
  let n := ch.toNat
  if 65 ≤ n && n ≤ 90 then n - 65
  else if 97 ≤ n && n ≤ 122 then n - 97 + 26
  else if 48 ≤ n && n ≤ 57 then n - 48 + 52
  else if n == 43 then 62
  else if n == 47 then 63
  else 0

/-- Modelled from the spec: standard radix-64 decoding of a padded digit
string back to bytes, the inverse direction of the round-trip law on the
Encoder. -/
def base64Decode : List Char → List Nat
  | w :: x :: y :: z :: rest =>
    if y = '=' then
      [b64DecodeChar w * 4 + b64DecodeChar x / 16]
    else if z = '=' then
      [b64DecodeChar w * 4 + b64DecodeChar x / 16,
       b64DecodeChar x % 16 * 16 + b64DecodeChar y / 4]
    else
      (b64DecodeChar w * 4 + b64DecodeChar x / 16) ::
      (b64DecodeChar x % 16 * 16 + b64DecodeChar y / 4) ::
      (b64DecodeChar y % 4 * 64 + b64DecodeChar z) ::
      base64Decode rest
  | _ => []

/-- A browser `File`: its byte contents and its declared media type. -/
structure JSFile where
  bytes : List Nat
  type : String
deriving DecidableEq

/-- The platform read primitive used by the Encoder:
`FileReader.readAsDataURL` resolves with the string
`data:<type>;base64,<payload>` where the payload is the radix-64 encoding of
the file bytes. -/
def readAsDataURL (file : JSFile) : String :=
  "data:" ++ file.type ++ ";base64," ++ String.mk (base64Encode file.bytes)

/-- JavaScript `String.prototype.split` with separator `,`, on character
lists. -/
def splitOnComma : List Char → List (List Char)
  | [] => [[]]
  | c :: rest =>
    if c = ',' then [] :: splitOnComma rest
    else
      match splitOnComma rest with
      | [] => [[c]]
      | h :: t => (c :: h) :: t

/-- The Encoder `fileToGenerativePart` (src/utils/imageUtils.ts): read the
file as a data URL, split on commas and keep index 1 (the part after the
scheme, i.e. the bare radix-64 payload), and pair it with the file's declared
media type. JS index 1 of a one-piece split would be `undefined`; the getD
default never arises because the data URL always contains the comma. -/
def fileToGenerativePart (file : JSFile) : Part :=
  { inlineData := some
      { data := String.mk ((splitOnComma (readAsDataURL file).data).getD 1 []),
        mimeType := file.type },
    text := none }

/-- The constructed SDK client (`new GoogleGenAI(\x7b apiKey \x7d)`). -/
structure GoogleGenAI where
  apiKey : Option String
deriving DecidableEq

/-- Message of the startup error (src/services/geminiService.ts line 4). -/
def initErrorMessage : String := "API_KEY environment variable is not set"

/-- Module initialization (src/services/geminiService.ts lines 3-7): if
`process.env.API_KEY` is falsy (absent or the empty string) an error is
thrown before any client is constructed; otherwise the client is built from
the credential. -/
def moduleInit (apiKeyEnv : Option String) : Except String GoogleGenAI :=
  if truthyString apiKeyEnv then Except.ok { apiKey := apiKeyEnv }
  else Except.error initErrorMessage

theorem oor_none (a : Option String) : oor a none = a := by
  cases a <;> rfl

theorem oor_assoc (a b c : Option String) : oor (oor a b) c = oor a (oor b c) := by
  cases a <;> rfl

theorem lastImage_cons (p : Part) (rest : List Part) :
    lastImage (p :: rest) = oor (lastImage rest) (Option.map dataUriOf p.inlineData) := by
  cases h : lastImage rest <;> simp [lastImage, oor, h]

theorem lastText_cons (p : Part) (rest : List Part) :
    lastText (p :: rest) = oor (lastText rest) (if isTextOnlyPart p then p.text else none) := by
  cases h : lastText rest <;> simp [lastText, oor, h]

theorem scanStep_eq (acc : Option String × Option String) (p : Part) :
    scanStep acc p =
      (oor (Option.map dataUriOf p.inlineData) acc.1,
       oor (if isTextOnlyPart p then p.text else none) acc.2) := by
  cases hi : p.inlineData with
  | some d => simp [scanStep, hi, isTextOnlyPart, oor]
  | none =>
    cases ht : p.text with
    | none => simp [scanStep, hi, ht, isTextOnlyPart, truthyString, oor]
    | some s =>
      by_cases hs : s = ""
      · simp [scanStep, hi, ht, hs, isTextOnlyPart, truthyString, oor]
      · simp [scanStep, hi, ht, hs, isTextOnlyPart, truthyString, oor]

theorem foldl_scanStep (parts : List Part) (acc : Option String × Option String) :
    parts.foldl scanStep acc = (oor (lastImage parts) acc.1, oor (lastText parts) acc.2) := by
  induction parts generalizing acc with
  | nil => simp [lastImage, lastText, oor]
  | cons p rest ih =>
    rw [List.foldl_cons, ih, scanStep_eq, lastImage_cons, lastText_cons]
    simp [oor_assoc]

theorem scanParts_eq (parts : List Part) :
    scanParts parts = (lastImage parts, lastText parts) := by
  rw [scanParts, foldl_scanStep]
  simp [oor_none]

theorem processResponse_mkResponse (parts : List Part) :
    processResponse (mkResponse parts) =
      if (lastImage parts).isNone && (lastText parts).isNone then
        Except.error protocolErrorMessage
      else
        Except.ok { image := lastImage parts, text := lastText parts } := by
  have h : processResponse (mkResponse parts) =
      if (scanParts parts).1.isNone && (scanParts parts).2.isNone then
        Except.error protocolErrorMessage
      else
        Except.ok { image := (scanParts parts).1, text := (scanParts parts).2 } := rfl
  rw [h, scanParts_eq]

theorem classify_protocol :
    classifyCaught protocolErrorMessage = AdapterFailure.genericError genericFailureMessage := by
  decide

theorem classify_typeError :
    classifyCaught typeErrorMessage = AdapterFailure.genericError genericFailureMessage := by
  decide

theorem editImage_const_response (ip : Part) (tp : String) (r : GenerateContentResponse) :
    editImageWithPrompt (fun _ => RemoteOutcome.response r) ip tp =
      (match processResponse r with
       | Except.ok res => Except.ok res
       | Except.error msg => Except.error (classifyCaught msg)) := rfl

theorem editImage_const_failure (ip : Part) (tp msg : String) :
    editImageWithPrompt (fun _ => RemoteOutcome.failure msg) ip tp =
      Except.error (classifyCaught msg) := rfl

theorem editImage_mkResponse (ip : Part) (tp : String) (parts : List Part) :
    editImageWithPrompt (fun _ => RemoteOutcome.response (mkResponse parts)) ip tp =
      if (lastImage parts).isNone && (lastText parts).isNone then
        Except.error (AdapterFailure.genericError genericFailureMessage)
      else
        Except.ok { image := lastImage parts, text := lastText parts } := by
  rw [editImage_const_response, processResponse_mkResponse]
  by_cases hc : ((lastImage parts).isNone && (lastText parts).isNone) = true
  · simp [hc, classify_protocol]
  · simp [hc]

theorem lastImage_none_of_all {parts : List Part}
    (h : ∀ p ∈ parts, isImagePart p = false) : lastImage parts = none := by
  induction parts with
  | nil => rfl
  | cons p rest ih =>
    have hrest := ih (fun q hq => h q (List.mem_cons_of_mem _ hq))
    cases hpi : p.inlineData with
    | some d =>
      exfalso
      have := h p (List.mem_cons_self _ _)
      simp [isImagePart, hpi] at this
    | none => rw [lastImage_cons, hrest, hpi]; rfl

theorem lastText_none_of_all {parts : List Part}
    (h : ∀ p ∈ parts, isTextOnlyPart p = false) : lastText parts = none := by
  induction parts with
  | nil => rfl
  | cons p rest ih =>
    have hrest := ih (fun q hq => h q (List.mem_cons_of_mem _ hq))
    rw [lastText_cons, hrest, h p (List.mem_cons_self _ _)]
    rfl

theorem lastImage_isSome_of_mem {parts : List Part} {p : Part}
    (hp : p ∈ parts) (h : isImagePart p = true) :
    (lastImage parts).isSome = true := by
  induction parts with
  | nil => cases hp
  | cons q rest ih =>
    rw [lastImage_cons]
    rcases List.mem_cons.mp hp with rfl | hmem
    · cases hL : lastImage rest with
      | some s => simp [oor]
      | none =>
        simp only [isImagePart] at h
        obtain ⟨d, hd⟩ := Option.isSome_iff_exists.mp h
        simp [oor, hd]
    · have hs := ih hmem
      obtain ⟨s, hsome⟩ := Option.isSome_iff_exists.mp hs
      simp [oor, hsome]

theorem lastText_isSome_of_mem {parts : List Part} {p : Part}
    (hp : p ∈ parts) (h : isTextOnlyPart p = true) :
    (lastText parts).isSome = true := by
  induction parts with
  | nil => cases hp
  | cons q rest ih =>
    rw [lastText_cons]
    rcases List.mem_cons.mp hp with rfl | hmem
    · cases hL : lastText rest with
      | some s => simp [oor]
      | none =>
        have ht : truthyString p.text = true := by
          simp only [isTextOnlyPart, Bool.and_eq_true] at h
          exact h.2
        cases hpt : p.text with
        | none => rw [hpt] at ht; simp [truthyString] at ht
        | some s => simp [oor, h, hpt]
    · have hs := ih hmem
      obtain ⟨s, hsome⟩ := Option.isSome_iff_exists.mp hs
      simp [oor, hsome]

theorem lastImage_append (xs ys : List Part) :
    lastImage (xs ++ ys) = oor (lastImage ys) (lastImage xs) := by
  induction xs with
  | nil => simp [lastImage, oor_none]
  | cons x xs ih => simp [List.cons_append, lastImage_cons, ih, oor_assoc]

theorem lastText_append (xs ys : List Part) :
    lastText (xs ++ ys) = oor (lastText ys) (lastText xs) := by
  induction xs with
  | nil => simp [lastText, oor_none]
  | cons x xs ih => simp [List.cons_append, lastText_cons, ih, oor_assoc]

theorem finishScan_ok_shape (s : Except String (Option String × Option String))
    (res : EditResult) (h : finishScan s = Except.ok res) :
    (res.image.isNone && res.text.isNone) = false := by
  match s with
  | Except.error msg => simp [finishScan] at h
  | Except.ok (ei, rt) =>
    by_cases hc : (ei.isNone && rt.isNone) = true
    · simp [finishScan, hc] at h
    · simp [finishScan, hc] at h
      rw [← h]
      exact Bool.eq_false_iff.mpr hc

theorem classifyCaught_cases (msg : String) :
    classifyCaught msg = AdapterFailure.authorizationError authorizationMessage ∨
    classifyCaught msg = AdapterFailure.genericError genericFailureMessage := by
  unfold classifyCaught
  split
  · exact Or.inl rfl
  · exact Or.inr rfl

theorem editImage_no_match (ip : Part) (tp : String) (parts : List Part)
    (h1 : ∀ p ∈ parts, isImagePart p = false)
    (h2 : ∀ p ∈ parts, isTextOnlyPart p = false) :
    processResponse (mkResponse parts) = Except.error protocolErrorMessage
    ∧ editImageWithPrompt (fun _ => RemoteOutcome.response (mkResponse parts)) ip tp
        = Except.error (AdapterFailure.genericError genericFailureMessage) := by
  have hI := lastImage_none_of_all h1
  have hT := lastText_none_of_all h2
  constructor
  · rw [processResponse_mkResponse, hI, hT]
    rfl
  · rw [editImage_mkResponse, hI, hT]
    rfl

/-- C1: for every response whose scanned part sequence contains at least one
inline-binary part and at least one text part, the adapter returns an
EditResult whose image is the data URI built from the last inline-binary part
(earlier binary parts discarded, last write wins) and whose text is the
content of the last text part (a part with inline data is never a text part,
cf. the else-if); the full sequence is iterated, captured by both fields being
determined by the last matching part. -/
theorem C1_last_write_wins (imagePart : Part) (textPrompt : String)
    (parts : List Part)
    (himg : ∃ p ∈ parts, isImagePart p = true)
    (htxt : ∃ p ∈ parts, isTextOnlyPart p = true) :
    editImageWithPrompt (fun _ => RemoteOutcome.response (mkResponse parts))
        imagePart textPrompt
      = Except.ok { image := lastImage parts, text := lastText parts }
    ∧ (lastImage parts).isSome = true ∧ (lastText parts).isSome = true := by
  obtain ⟨p, hp, hP⟩ := himg
  obtain ⟨q, hq, hQ⟩ := htxt
  have hI := lastImage_isSome_of_mem hp hP
  have hT := lastText_isSome_of_mem hq hQ
  refine ⟨?_, hI, hT⟩
  obtain ⟨s, hs⟩ := Option.isSome_iff_exists.mp hI
  rw [editImage_mkResponse, hs]
  simp

/-- C1 witness: two inline-image parts with payloads X then Y and two text
parts alpha then beta; the result encodes Y and carries beta. -/
theorem C1_witness :
    (∃ p ∈ ([{ inlineData := some { data := "X", mimeType := "image/png" }, text := none },
              { inlineData := none, text := some "alpha" },
              { inlineData := some { data := "Y", mimeType := "image/png" }, text := none },
              { inlineData := none, text := some "beta" }] : List Part),
        isImagePart p = true) ∧
    editImageWithPrompt (fun _ => RemoteOutcome.response (mkResponse
        [{ inlineData := some { data := "X", mimeType := "image/png" }, text := none },
         { inlineData := none, text := some "alpha" },
         { inlineData := some { data := "Y", mimeType := "image/png" }, text := none },
         { inlineData := none, text := some "beta" }]))
        { inlineData := none, text := none } "edit"
      = Except.ok { image := some "data:image/png;base64,Y", text := some "beta" } := by
  refine ⟨by decide, ?_⟩
  have h := C1_last_write_wins { inlineData := none, text := none } "edit"
      [{ inlineData := some { data := "X", mimeType := "image/png" }, text := none },
       { inlineData := none, text := some "alpha" },
       { inlineData := some { data := "Y", mimeType := "image/png" }, text := none },
       { inlineData := none, text := some "beta" }] (by decide) (by decide)
  exact h.1

/-- C2: a response with no binary part and no (truthy) text part makes the
try-block throw the protocol error (never an all-empty EditResult), which the
catch block surfaces as the generic failure; moreover no outcome whatsoever
can make the adapter return an EditResult with both fields empty. -/
theorem C2_empty_response_fails (ip : Part) (tp : String) (parts : List Part)
    (h1 : ∀ p ∈ parts, isImagePart p = false)
    (h2 : ∀ p ∈ parts, isTextOnlyPart p = false) :
    processResponse (mkResponse parts) = Except.error protocolErrorMessage
    ∧ editImageWithPrompt (fun _ => RemoteOutcome.response (mkResponse parts)) ip tp
        = Except.error (AdapterFailure.genericError genericFailureMessage)
    ∧ ∀ o : RemoteOutcome,
        editImageWithPrompt (fun _ => o) ip tp ≠
          Except.ok { image := none, text := none } := by
  refine ⟨(editImage_no_match ip tp parts h1 h2).1,
    (editImage_no_match ip tp parts h1 h2).2, ?_⟩
  intro o
  cases o with
  | failure msg =>
    rw [editImage_const_failure]
    simp
  | response r =>
    rw [editImage_const_response]
    cases hr : processResponse r with
    | error msg => simp
    | ok res =>
      have hshape := finishScan_ok_shape (scanCandidates r) res hr
      simp only []
      intro hcontra
      rw [Except.ok.injEq] at hcontra
      rw [hcontra] at hshape
      simp at hshape

/-- C2 witness: a response whose single candidate has an empty parts list. -/
theorem C2_witness :
    processResponse (mkResponse []) = Except.error protocolErrorMessage
    ∧ editImageWithPrompt (fun _ => RemoteOutcome.response (mkResponse []))
        { inlineData := none, text := none } "go"
        = Except.error (AdapterFailure.genericError genericFailureMessage) := by
  have h := C2_empty_response_fails { inlineData := none, text := none } "go" []
      (by decide) (by decide)
  exact ⟨h.1, h.2.1⟩

/-- C3: a rejected remote call whose error message contains the substring
`permission` surfaces as the authorization error with exactly the fixed
authorization message, every other rejection surfaces as the one fixed
generic message; any failure the adapter ever surfaces carries one of these
two fixed messages (the low-level error text is never exposed), and the two
messages differ. -/
theorem C3_error_classification (ip : Part) (tp msg : String) :
    editImageWithPrompt (fun _ => RemoteOutcome.failure msg) ip tp =
      Except.error
        (if strIncludes msg "permission" then
          AdapterFailure.authorizationError authorizationMessage
        else
          AdapterFailure.genericError genericFailureMessage)
    ∧ (∀ (o : RemoteOutcome) (f : AdapterFailure),
        editImageWithPrompt (fun _ => o) ip tp = Except.error f →
          f = AdapterFailure.authorizationError authorizationMessage ∨
          f = AdapterFailure.genericError genericFailureMessage)
    ∧ authorizationMessage ≠ genericFailureMessage := by
  refine ⟨?_, ?_, by decide⟩
  · rw [editImage_const_failure]
    unfold classifyCaught
    split
    · rfl
    · rfl
  · intro o f h
    cases o with
    | failure m =>
      rw [editImage_const_failure] at h
      rw [Except.error.injEq] at h
      rw [← h]
      exact classifyCaught_cases m
    | response r =>
      rw [editImage_const_response] at h
      cases hr : processResponse r with
      | ok res => rw [hr] at h; simp at h
      | error m =>
        rw [hr] at h
        simp only [Except.error.injEq] at h
        rw [← h]
        exact classifyCaught_cases m

/-- C3 witness: a transport failure whose message mentions permission is
surfaced as the authorization error; one whose message does not is surfaced
as the generic error. -/
theorem C3_witness :
    editImageWithPrompt (fun _ => RemoteOutcome.failure "insufficient permission for model")
        { inlineData := none, text := none } "go"
      = Except.error (AdapterFailure.authorizationError authorizationMessage)
    ∧ (AdapterFailure.genericError genericFailureMessage
          = AdapterFailure.authorizationError authorizationMessage ∨
       AdapterFailure.genericError genericFailureMessage
          = AdapterFailure.genericError genericFailureMessage) := by
  constructor
  · have h := (C3_error_classification { inlineData := none, text := none } "go"
        "insufficient permission for model").1
    rw [h]
    rfl
  · exact (C3_error_classification { inlineData := none, text := none } "go" "x").2.1
      (RemoteOutcome.failure "ECONNRESET")
      (AdapterFailure.genericError genericFailureMessage) rfl

/-- C4: a response with at least one truthy text part and no binary part is a
success: image is absent, text is the collected (last) text string. -/
theorem C4_text_only_success (ip : Part) (tp : String) (parts : List Part)
    (h1 : ∀ p ∈ parts, isImagePart p = false)
    (h2 : ∃ p ∈ parts, isTextOnlyPart p = true) :
    editImageWithPrompt (fun _ => RemoteOutcome.response (mkResponse parts)) ip tp
      = Except.ok { image := none, text := lastText parts }
    ∧ (lastText parts).isSome = true := by
  have hI := lastImage_none_of_all h1
  obtain ⟨q, hq, hQ⟩ := h2
  have hT := lastText_isSome_of_mem hq hQ
  obtain ⟨s, hs⟩ := Option.isSome_iff_exists.mp hT
  refine ⟨?_, hT⟩
  rw [editImage_mkResponse, hI, hs]
  simp

/-- C4 witness: a single text part. -/
theorem C4_witness :
    editImageWithPrompt (fun _ => RemoteOutcome.response (mkResponse
        [{ inlineData := none, text := some "a cat" }]))
        { inlineData := none, text := none } "go"
      = Except.ok { image := none, text := some "a cat" } := by
  have h := C4_text_only_success { inlineData := none, text := none } "go"
      [{ inlineData := none, text := some "a cat" }] (by decide) (by decide)
  exact h.1

/-- C5: one invocation of the adapter issues exactly one remote call, whose
parts are the two-element sequence image part then text part, whose model id
is the fixed hard-coded string, and whose config requests both the IMAGE and
the TEXT response modalities. -/
theorem C5_single_request_shape (oracle : GenerateContentRequest → RemoteOutcome)
    (imagePart : Part) (textPrompt : String) :
    adapterRequestTrace oracle imagePart textPrompt
        = [buildRequest imagePart textPrompt]
    ∧ (buildRequest imagePart textPrompt).model = "gemini-2.5-flash-image-preview"
    ∧ (buildRequest imagePart textPrompt).parts
        = [imagePart, { inlineData := none, text := some textPrompt }]
    ∧ (buildRequest imagePart textPrompt).config.responseModalities
        = [Modality.IMAGE, Modality.TEXT] :=
  ⟨rfl, rfl, rfl, rfl⟩

/-- C8: only the first candidate matters (any further candidates can be
dropped without changing the result); an absent candidates list fails with
the generic-surfaced protocol error; a first candidate whose content carries
no parts list likewise makes the adapter fail rather than return a result. -/
theorem C8_first_candidate_only (ip : Part) (tp : String)
    (c0 : Candidate) (rest : List Candidate) :
    editImageWithPrompt
        (fun _ => RemoteOutcome.response { candidates := some (c0 :: rest) }) ip tp
      = editImageWithPrompt
        (fun _ => RemoteOutcome.response { candidates := some [c0] }) ip tp
    ∧ editImageWithPrompt
        (fun _ => RemoteOutcome.response { candidates := none }) ip tp
      = Except.error (AdapterFailure.genericError genericFailureMessage)
    ∧ (∀ ct : Content, c0.content = some ct → ct.parts = none →
        editImageWithPrompt
            (fun _ => RemoteOutcome.response { candidates := some (c0 :: rest) }) ip tp
          = Except.error (AdapterFailure.genericError genericFailureMessage)) := by
  refine ⟨rfl, rfl, ?_⟩
  intro ct h1 h2
  rcases c0 with ⟨oc⟩
  have hoc : oc = some ct := h1
  subst hoc
  rcases ct with ⟨op⟩
  have hop : op = none := h2
  subst hop
  rfl

/-- C8 witness: a single candidate whose content has no parts list. -/
theorem C8_witness :
    editImageWithPrompt
        (fun _ => RemoteOutcome.response
          { candidates := some [{ content := some { parts := none } }] })
        { inlineData := none, text := none } "go"
      = Except.error (AdapterFailure.genericError genericFailureMessage) := by
  have h := C8_first_candidate_only { inlineData := none, text := none } "go"
      { content := some { parts := none } } []
  exact h.2.2 { parts := none } rfl rfl

/-- C9: a part carrying both inline binary data and text counts only as a
binary part: replacing its text by nothing changes no result, and a response
consisting of exactly one such part yields its data URI with no text. -/
theorem C9_binary_wins_over_text (ip : Part) (tp : String)
    (pre post : List Part) (d : InlineData) (s : String) :
    editImageWithPrompt (fun _ => RemoteOutcome.response (mkResponse
        (pre ++ { inlineData := some d, text := some s } :: post))) ip tp
      = editImageWithPrompt (fun _ => RemoteOutcome.response (mkResponse
        (pre ++ { inlineData := some d, text := none } :: post))) ip tp
    ∧ editImageWithPrompt (fun _ => RemoteOutcome.response (mkResponse
        [{ inlineData := some d, text := some s }])) ip tp
      = Except.ok { image := some (dataUriOf d), text := none } := by
  constructor
  · rw [editImage_mkResponse, editImage_mkResponse]
    have hI : lastImage (pre ++ { inlineData := some d, text := some s } :: post)
        = lastImage (pre ++ { inlineData := some d, text := none } :: post) := by
      rw [lastImage_append, lastImage_append, lastImage_cons, lastImage_cons]
    have hT : lastText (pre ++ { inlineData := some d, text := some s } :: post)
        = lastText (pre ++ { inlineData := some d, text := none } :: post) := by
      rw [lastText_append, lastText_append, lastText_cons, lastText_cons]
      simp [isTextOnlyPart]
    rw [hI, hT]
  · rfl

/-- C10: an empty-string text part is a no-op of the scan (removing it
changes no result), and a response whose parts are all empty-string text
parts fails as a protocol violation instead of succeeding with empty text. -/
theorem C10_empty_text_ignored (ip : Part) (tp : String)
    (pre post : List Part) :
    editImageWithPrompt (fun _ => RemoteOutcome.response (mkResponse
        (pre ++ { inlineData := none, text := some "" } :: post))) ip tp
      = editImageWithPrompt (fun _ => RemoteOutcome.response (mkResponse
        (pre ++ post))) ip tp
    ∧ (∀ parts : List Part,
        (∀ p ∈ parts, p = { inlineData := none, text := some "" }) →
        editImageWithPrompt (fun _ => RemoteOutcome.response (mkResponse parts)) ip tp
          = Except.error (AdapterFailure.genericError genericFailureMessage)) := by
  constructor
  · rw [editImage_mkResponse, editImage_mkResponse]
    have hI : lastImage (pre ++ { inlineData := none, text := some "" } :: post)
        = lastImage (pre ++ post) := by
      rw [lastImage_append, lastImage_append, lastImage_cons]
      simp [oor_none]
    have hT : lastText (pre ++ { inlineData := none, text := some "" } :: post)
        = lastText (pre ++ post) := by
      rw [lastText_append, lastText_append, lastText_cons]
      simp [oor_none, isTextOnlyPart, truthyString]
    rw [hI, hT]
  · intro parts hall
    have h1 : ∀ p ∈ parts, isImagePart p = false := by
      intro p hp
      rw [hall p hp]
      rfl
    have h2 : ∀ p ∈ parts, isTextOnlyPart p = false := by
      intro p hp
      rw [hall p hp]
      decide
    exact (editImage_no_match ip tp parts h1 h2).2

/-- C10 witness: two empty-string text parts. -/
theorem C10_witness :
    editImageWithPrompt (fun _ => RemoteOutcome.response (mkResponse
        [{ inlineData := none, text := some "" },
         { inlineData := none, text := some "" }]))
        { inlineData := none, text := none } "go"
      = Except.error (AdapterFailure.genericError genericFailureMessage) := by
  have h := C10_empty_text_ignored { inlineData := none, text := none } "go" [] []
  exact h.2 [{ inlineData := none, text := some "" },
             { inlineData := none, text := some "" }] (by decide)

theorem encChar_lt_ne_comma : ∀ n < 64, b64EncodeChar n ≠ ',' := by decide

theorem encChar_lt_ne_pad : ∀ n < 64, b64EncodeChar n ≠ '=' := by decide

theorem decChar_encChar : ∀ n < 64, b64DecodeChar (b64EncodeChar n) = n := by decide

theorem base64Encode_no_comma (bs : List Nat) (h : ∀ b ∈ bs, b < 256) :
    ',' ∉ base64Encode bs := by
  induction bs using base64Encode.induct with
  | case1 => simp [base64Encode]
  | case2 a =>
    have ha : a < 256 := h a (by simp)
    simp only [base64Encode, List.mem_cons, List.not_mem_nil, or_false]
    push_neg
    refine ⟨?_, ?_, by decide, by decide⟩
    · exact fun hh => encChar_lt_ne_comma (a / 4) (by omega) hh.symm
    · exact fun hh => encChar_lt_ne_comma (a % 4 * 16) (by omega) hh.symm
  | case3 a b =>
    have ha : a < 256 := h a (by simp)
    have hb : b < 256 := h b (by simp)
    simp only [base64Encode, List.mem_cons, List.not_mem_nil, or_false]
    push_neg
    refine ⟨?_, ?_, ?_, by decide⟩
    · exact fun hh => encChar_lt_ne_comma (a / 4) (by omega) hh.symm
    · exact fun hh => encChar_lt_ne_comma (a % 4 * 16 + b / 16) (by omega) hh.symm
    · exact fun hh => encChar_lt_ne_comma (b % 16 * 4) (by omega) hh.symm
  | case4 a b c rest ih =>
    have ha : a < 256 := h a (by simp)
    have hb : b < 256 := h b (by simp)
    have hc : c < 256 := h c (by simp)
    have hrest := ih (fun q hq => h q (by simp [hq]))
    simp only [base64Encode, List.mem_cons]
    push_neg
    refine ⟨?_, ?_, ?_, ?_, hrest⟩
    · exact fun hh => encChar_lt_ne_comma (a / 4) (by omega) hh.symm
    · exact fun hh => encChar_lt_ne_comma (a % 4 * 16 + b / 16) (by omega) hh.symm
    · exact fun hh => encChar_lt_ne_comma (b % 16 * 4 + c / 64) (by omega) hh.symm
    · exact fun hh => encChar_lt_ne_comma (c % 64) (by omega) hh.symm

theorem base64_roundTrip (bs : List Nat) (h : ∀ b ∈ bs, b < 256) :
    base64Decode (base64Encode bs) = bs := by
  induction bs using base64Encode.induct with
  | case1 => rfl
  | case2 a =>
    have ha : a < 256 := h a (by simp)
    show base64Decode
        [b64EncodeChar (a / 4), b64EncodeChar (a % 4 * 16), '=', '='] = [a]
    rw [base64Decode, if_pos rfl,
        decChar_encChar (a / 4) (by omega),
        decChar_encChar (a % 4 * 16) (by omega)]
    congr 1
    omega
  | case3 a b =>
    have ha : a < 256 := h a (by simp)
    have hb : b < 256 := h b (by simp)
    show base64Decode
        [b64EncodeChar (a / 4), b64EncodeChar (a % 4 * 16 + b / 16),
         b64EncodeChar (b % 16 * 4), '='] = [a, b]
    rw [base64Decode, if_neg (encChar_lt_ne_pad (b % 16 * 4) (by omega)),
        if_pos rfl,
        decChar_encChar (a / 4) (by omega),
        decChar_encChar (a % 4 * 16 + b / 16) (by omega),
        decChar_encChar (b % 16 * 4) (by omega)]
    congr 1
    · omega
    · congr 1
      omega
  | case4 a b c rest ih =>
    have ha : a < 256 := h a (by simp)
    have hb : b < 256 := h b (by simp)
    have hc : c < 256 := h c (by simp)
    have hrest := ih (fun q hq => h q (by simp [hq]))
    show base64Decode
        (b64EncodeChar (a / 4) :: b64EncodeChar (a % 4 * 16 + b / 16) ::
         b64EncodeChar (b % 16 * 4 + c / 64) :: b64EncodeChar (c % 64) ::
         base64Encode rest) = a :: b :: c :: rest
    rw [base64Decode, if_neg (encChar_lt_ne_pad (b % 16 * 4 + c / 64) (by omega)),
        if_neg (encChar_lt_ne_pad (c % 64) (by omega)),
        decChar_encChar (a / 4) (by omega),
        decChar_encChar (a % 4 * 16 + b / 16) (by omega),
        decChar_encChar (b % 16 * 4 + c / 64) (by omega),
        decChar_encChar (c % 64) (by omega), hrest]
    congr 1
    · omega
    · congr 1
      · omega
      · congr 1
        omega

theorem splitOnComma_of_not_mem (xs : List Char) (h : ',' ∉ xs) :
    splitOnComma xs = [xs] := by
  induction xs with
  | nil => rfl
  | cons c rest ih =>
    have hc : ¬ c = ',' := by
      intro hh
      exact h (by rw [hh]; exact List.mem_cons_self _ _)
    have hrest := ih (fun hm => h (List.mem_cons_of_mem _ hm))
    rw [splitOnComma, if_neg hc, hrest]

theorem splitOnComma_append (xs ys : List Char) (hx : ',' ∉ xs) (hy : ',' ∉ ys) :
    splitOnComma (xs ++ ',' :: ys) = [xs, ys] := by
  induction xs with
  | nil =>
    show splitOnComma (',' :: ys) = [[], ys]
    rw [splitOnComma, if_pos rfl, splitOnComma_of_not_mem ys hy]
  | cons c rest ih =>
    have hc : ¬ c = ',' := by
      intro hh
      exact hx (by rw [hh]; exact List.mem_cons_self _ _)
    have hrest := ih (fun hm => hx (List.mem_cons_of_mem _ hm))
    show splitOnComma (c :: (rest ++ ',' :: ys)) = [c :: rest, ys]
    rw [splitOnComma, if_neg hc, hrest]

theorem fileToGenerativePart_payload (file : JSFile)
    (hbytes : ∀ b ∈ file.bytes, b < 256) (htype : ',' ∉ file.type.data) :
    (splitOnComma (readAsDataURL file).data).getD 1 [] = base64Encode file.bytes := by
  have hdata : (readAsDataURL file).data
      = ("data:".data ++ (file.type.data ++ ";base64".data)) ++
          ',' :: base64Encode file.bytes := by
    show ("data:" ++ file.type ++ ";base64," ++ String.mk (base64Encode file.bytes)).data = _
    rw [String.data_append, String.data_append, String.data_append]
    show "data:".data ++ file.type.data ++ (";base64".data ++ [',']) ++ base64Encode file.bytes = _
    simp [List.append_assoc]
  have hpre : ',' ∉ "data:".data ++ (file.type.data ++ ";base64".data) := by
    intro hm
    rcases List.mem_append.mp hm with h1 | h2
    · revert h1; decide
    · rcases List.mem_append.mp h2 with h3 | h4
      · exact htype h3
      · revert h4; decide
  rw [hdata, splitOnComma_append _ _ hpre (base64Encode_no_comma file.bytes hbytes)]
  rfl

/-- C6: for a readable file (bytes below 256, media type without a comma, as
any MIME type), the Encoder produces exactly the bare radix-64 encoding of
the bytes with the data-URI scheme stripped, paired with the declared media
type, and standard decoding of that payload reproduces the bytes exactly. -/
theorem C6_encoder_roundtrip (file : JSFile)
    (hbytes : ∀ b ∈ file.bytes, b < 256) (htype : ',' ∉ file.type.data) :
    fileToGenerativePart file =
      { inlineData := some
          { data := String.mk (base64Encode file.bytes), mimeType := file.type },
        text := none }
    ∧ base64Decode (String.mk (base64Encode file.bytes)).data = file.bytes := by
  refine ⟨?_, base64_roundTrip file.bytes hbytes⟩
  unfold fileToGenerativePart
  rw [fileToGenerativePart_payload file hbytes htype]

/-- C6 witness: the three bytes of "Man" as a PNG file; the payload is the
classic TWFu and decodes back. -/
theorem C6_witness :
    (∀ b ∈ ({ bytes := [77, 97, 110], type := "image/png" } : JSFile).bytes, b < 256)
    ∧ (',' ∉ ({ bytes := [77, 97, 110], type := "image/png" } : JSFile).type.data)
    ∧ fileToGenerativePart { bytes := [77, 97, 110], type := "image/png" } =
        { inlineData := some
            { data := String.mk (base64Encode [77, 97, 110]), mimeType := "image/png" },
          text := none }
    ∧ base64Decode (String.mk (base64Encode [77, 97, 110])).data = [77, 97, 110] := by
  have h := C6_encoder_roundtrip { bytes := [77, 97, 110], type := "image/png" }
      (by decide) (by decide)
  exact ⟨by decide, by decide, h.1, h.2⟩

/-- C7 counterexample: the credential can be present in the environment as
the empty string; the claim says a present credential makes initialization
succeed, but the module throws the startup error (JS falsiness of the empty
string), refuting the claim as stated. -/
theorem C7_counterexample :
    moduleInit (some "") = Except.error initErrorMessage
    ∧ (moduleInit (some "")).isOk = false := ⟨rfl, rfl⟩

/-- C7 amended: if the credential is absent, or present but empty, module
initialization throws the startup error before any client is constructed;
if it is present and non-empty, initialization succeeds with the client
built from it. -/
theorem C7_fail_fast_startup :
    moduleInit none = Except.error initErrorMessage
    ∧ (∀ s : String, s ≠ "" → moduleInit (some s) = Except.ok { apiKey := some s })
    ∧ moduleInit (some "") = Except.error initErrorMessage := by
  refine ⟨rfl, ?_, rfl⟩
  intro s hs
  simp [moduleInit, truthyString, hs]

/-- C7 witness: a concrete non-empty credential initializes successfully. -/
theorem C7_witness :
    ("test-key" : String) ≠ ""
    ∧ moduleInit (some "test-key") = Except.ok { apiKey := some "test-key" } :=
  ⟨by decide, C7_fail_fast_startup.2.1 "test-key" (by decide)⟩

end NanoBanana
